import Mathlib

/-!
Verification of the ILI9488 display driver
(`adafruit_rgb_display/ili9488.py`).

The file shallowly embeds the driver's data model and operations:

* command-code constants, the static init table `_INIT`, and the pixel
  encoder `_encode_pixel` are translated directly from `ili9488.py`;
* the generic `DisplaySPI` base class (module `adafruit_rgb_display.rgb`)
  is not part of this repository snapshot, so the operations it provides
  (Initialize, SetWindow, WritePixels, the constructor's bus behaviour)
  are modelled from the specification, with the subclass's constants and
  encodings (`_COLUMN_SET`, `_PAGE_SET`, `_ENCODE_POS`, `_INIT`,
  `_encode_pixel`) taken from `ili9488.py`.

Bytes are modelled as natural numbers below 256; Python's `struct.pack`
is modelled as a function into `Option (List Nat)`, returning `none`
exactly when `struct.pack` would raise `struct.error` (value out of the
format's range).
-/

namespace ILI9488

/-- Big-endian base-256 encoding of `v` on exactly `w` bytes
(the low `w` bytes of `v`, most significant first).
This is the byte layout produced by Python's `struct.pack` for
big-endian unsigned integer formats. -/
def packBE : Nat → Nat → List Nat
  | 0, _ => []
  | w + 1, v => packBE w (v / 256) ++ [v % 256]

/-- Python `struct.pack(">I", v)`: 4 bytes big-endian; raises
`struct.error` (here: `none`) unless `0 ≤ v < 2^32`. -/
def structPackI (v : Int) : Option (List Nat) :=
  if 0 ≤ v ∧ v < 2 ^ 32 then some (packBE 4 v.toNat) else none

/-- Python `struct.pack(">HH", a, b)` for non-negative arguments:
two big-endian 16-bit values; raises `struct.error` (here: `none`)
unless both fit in 16 bits. -/
def packHH (a b : Nat) : Option (List Nat) :=
  if a < 2 ^ 16 ∧ b < 2 ^ 16 then some (packBE 2 a ++ packBE 2 b) else none

/-- `ILI9488._encode_pixel`, from `ili9488.py`:
`struct.pack(self._ENCODE_PIXEL, color)[1:]` with `_ENCODE_PIXEL = ">I"`,
i.e. the 4-byte big-endian packing of `color` with its first byte
dropped. -/
def encode_pixel (color : Int) : Option (List Nat) :=
  (structPackI color).map (fun bs => bs.drop 1)

/-- One entry of the init table: a command code with an optional
parameter byte string (`(const(..), b"...")` or `(ccc, None)` in the
source). -/
structure CommandEntry where
  command : Nat
  params : Option (List Nat)
deriving DecidableEq, Repr

/-- Command-code constants from `ili9488.py`. -/
def _SLPOUT : Nat := 0x11

def _DISPON : Nat := 0x29

def _CASET : Nat := 0x2A

def _RASET : Nat := 0x2B

def _RAMWR : Nat := 0x2C

def _RAMRD : Nat := 0x2E

/-- `ILI9488._COLUMN_SET = _CASET`. -/
def _COLUMN_SET : Nat := _CASET

/-- `ILI9488._PAGE_SET = _RASET`. -/
def _PAGE_SET : Nat := _RASET

/-- `ILI9488._RAM_WRITE = _RAMWR`. -/
def _RAM_WRITE : Nat := _RAMWR

/-- `ILI9488._RAM_READ = _RAMRD`. -/
def _RAM_READ : Nat := _RAMRD

/-- The static init table `ILI9488._INIT` from `ili9488.py`,
entry for entry and byte for byte. -/
def _INIT : List CommandEntry :=
  [ ⟨0xE0, some [0x0F, 0x13, 0x1D, 0x09, 0x18, 0x0A, 0x43, 0x66, 0x4F,
                 0x07, 0x0F, 0x0E, 0x18, 0x1A, 0x03]⟩,
    ⟨0xE1, some [0x0F, 0x1A, 0x1D, 0x04, 0x0F, 0x04, 0x31, 0x14, 0x43,
                 0x03, 0x0D, 0x0C, 0x26, 0x29, 0x00]⟩,
    ⟨0x36, some [0x08]⟩,
    ⟨0x3A, some [0x66]⟩,
    ⟨0xC0, some [0x14, 0x0E]⟩,
    ⟨0xC1, some [0x43]⟩,
    ⟨0xC5, some [0x00, 0x36, 0x80]⟩,
    ⟨0xB0, some [0x80]⟩,
    ⟨0xB1, some [0xA0, 0x11]⟩,
    ⟨0xB4, some [0x02]⟩,
    ⟨0xB6, some [0x02, 0x02, 0x3B]⟩,
    ⟨0xE9, some [0x00]⟩,
    ⟨0xF7, some [0xA9, 0x51, 0x2C, 0x82]⟩,
    ⟨_SLPOUT, none⟩,
    ⟨_DISPON, none⟩ ]

/-- Driver configuration (`DriverConfig` of the spec; the keyword
arguments of `ILI9488.__init__`). -/
structure DriverConfig where
  width : Nat
  height : Nat
  x_offset : Nat
  y_offset : Nat
  rot : Nat
  baudrate : Nat
  polarity : Nat
  phase : Nat
deriving DecidableEq, Repr

/-- The default configuration of `ILI9488.__init__`:
`width=320, height=480, baudrate=16000000, polarity=0, phase=0,
x_offset=0, y_offset=0, rotation=0`. -/
def defaultConfig : DriverConfig :=
  ⟨320, 480, 0, 0, 0, 16000000, 0, 0⟩

/-- Observable bus/line actions of the driver: a command byte sent in
command mode, a contiguous burst of bytes sent in data mode, a
read-back of a number of pixels from the bus, and the assert/release
edges of the optional reset line. -/
inductive Event where
  | cmd (c : Nat)
  | data (bs : List Nat)
  | read (count : Nat)
  | resetAssert
  | resetRelease
deriving DecidableEq, Repr

/-- Is this event an action on the reset line? -/
def isReset : Event → Bool
  | Event.resetAssert => true
  | Event.resetRelease => true
  | _ => false

/-- The command byte of an event, when it is one. -/
def cmdOf : Event → Option Nat
  | Event.cmd c => some c
  | _ => none

/-- Modelled from the spec: the per-entry transmission step of
Initialize() — select command mode and transmit the command byte, then,
if parameters are present, select data mode and transmit the parameter
bytes as one contiguous burst.  (The loop lives in the `DisplaySPI`
base class, which is not in this repository snapshot.) -/
def runInit : List CommandEntry → List Event
  | [] => []
  | e :: rest =>
    (match e.params with
      | some ps => [Event.cmd e.command, Event.data ps]
      | none => [Event.cmd e.command]) ++ runInit rest

/-- Modelled from the spec: Initialize() — if a reset line is present,
pulse it (assert, release), then transmit the init table in order.
(The method lives in the `DisplaySPI` base class, which is not in this
repository snapshot; the table `_INIT` is from `ili9488.py`.) -/
def init (hasReset : Bool) : List Event :=
  (if hasReset then [Event.resetAssert, Event.resetRelease] else []) ++
    runInit _INIT

/-- Modelled from the spec: SetWindow(x_start, y_start, x_end, y_end) —
issue the column-address-set command with `(x_start+x_offset,
x_end+x_offset)` as two big-endian 16-bit values, then the
row-address-set command with `(y_start+y_offset, y_end+y_offset)`
likewise.  (The window-setting helper lives in the `DisplaySPI` base
class, which is not in this repository snapshot; the command codes
`_COLUMN_SET`/`_PAGE_SET` and the `">HH"` position format are from
`ili9488.py`.) -/
def setWindow (cfg : DriverConfig) (x0 y0 x1 y1 : Nat) :
    Option (List Event) :=
  match packHH (x0 + cfg.x_offset) (x1 + cfg.x_offset),
        packHH (y0 + cfg.y_offset) (y1 + cfg.y_offset) with
  | some cb, some pb =>
    some [Event.cmd _COLUMN_SET, Event.data cb,
          Event.cmd _PAGE_SET, Event.data pb]
  | _, _ => none

/-- Modelled from the spec: WritePixels(colors) — issue the
memory-write command, then transmit each color's 3-byte encoding.
(The bulk-write helper lives in the `DisplaySPI` base class, which is
not in this repository snapshot; the pixel encoder is
`ILI9488._encode_pixel`.) -/
def writePixels (colors : List Int) : Option (List Event) :=
  (colors.mapM encode_pixel).map
    (fun bss => [Event.cmd _RAM_WRITE, Event.data bss.flatten])

/-- Modelled from the spec: ReadPixels(count) — issue the memory-read
command, then read `count` pixels back from the bus.  (The read helper
lives in the `DisplaySPI` base class, which is not in this repository
snapshot; the command code `_RAM_READ` is from `ili9488.py`.) -/
def readPixels (count : Nat) : List Event :=
  [Event.cmd _RAM_READ, Event.read count]

/-- A driver object: its stored configuration and whether a reset line
was supplied. -/
structure Driver where
  config : DriverConfig
  hasReset : Bool
deriving DecidableEq, Repr

/-- Modelled from the spec: Construct(bus, dc, cs, rst?, config) —
stores the configuration and performs no bus transaction (second
component: the list of bus events emitted during construction).
(`ILI9488.__init__` only forwards its arguments to the `DisplaySPI`
base-class constructor, which is not in this repository snapshot.) -/
def construct (cfg : DriverConfig) (hasReset : Bool) :
    Driver × List Event :=
  (⟨cfg, hasReset⟩, [])

/-- The single error kind of the driver: an underlying bus-transport
failure, propagated verbatim. -/
inductive BusError where
  | busError
deriving DecidableEq, Repr

/-- Modelled from the spec: the init-table transmission over a fallible
bus.  `bus k` says whether the `k`-th bus write succeeds; each command
byte and each contiguous parameter burst is one bus write.  Returns the
events actually transmitted and either success or the propagated
`BusError` (no retry, no wrapping). -/
def runInitE (bus : Nat → Bool) : Nat → List CommandEntry →
    List Event × Except BusError Unit
  | _, [] => ([], Except.ok ())
  | k, e :: rest =>
    if bus k then
      match e.params with
      | some ps =>
        if bus (k + 1) then
          let r := runInitE bus (k + 2) rest
          (Event.cmd e.command :: Event.data ps :: r.1, r.2)
        else
          ([Event.cmd e.command], Except.error BusError.busError)
      | none =>
        let r := runInitE bus (k + 1) rest
        (Event.cmd e.command :: r.1, r.2)
    else
      ([], Except.error BusError.busError)

theorem packBE_length (w v : Nat) : (packBE w v).length = w := by
  induction w generalizing v with
  | zero => rfl
  | succ w ih => simp [packBE, ih]

theorem packBE_drop_one (w v : Nat) :
    (packBE (w + 1) v).drop 1 = packBE w (v % 256 ^ w) := by
  induction w generalizing v with
  | zero => simp [packBE]
  | succ w ih =>
    have h1 : (packBE (w + 1) (v / 256)).length = w + 1 := packBE_length _ _
    have hdrop :
        (packBE (w + 1) (v / 256) ++ [v % 256]).drop 1 =
          (packBE (w + 1) (v / 256)).drop 1 ++ [v % 256] :=
      List.drop_append_of_le_length (by omega)
    have hmod : v % 256 ^ (w + 1) % 256 = v % 256 :=
      Nat.mod_mod_of_dvd v (dvd_pow_self 256 (Nat.succ_ne_zero w))
    have hdiv : v % 256 ^ (w + 1) / 256 = v / 256 % 256 ^ w := by
      have := Nat.mod_mul_right_div_self v 256 (256 ^ w)
      simpa [pow_succ, mul_comm] using this
    calc (packBE (w + 2) v).drop 1
        = (packBE (w + 1) (v / 256)).drop 1 ++ [v % 256] := by
          simpa [packBE] using hdrop
      _ = packBE w (v / 256 % 256 ^ w) ++ [v % 256] := by rw [ih]
      _ = packBE (w + 1) (v % 256 ^ (w + 1)) := by
          simp [packBE, hmod, hdiv]

theorem runInit_append (l1 l2 : List CommandEntry) :
    runInit (l1 ++ l2) = runInit l1 ++ runInit l2 := by
  induction l1 with
  | nil => rfl
  | cons e rest ih => simp [runInit, ih]

theorem runInitE_take (table : List CommandEntry) :
    ∀ i k (bus : Nat → Bool), (∀ j, bus j = decide (j < k + i)) →
      runInitE bus k table =
        ((runInit table).take i,
         if i < (runInit table).length then Except.error BusError.busError
         else Except.ok ()) := by
  induction table with
  | nil =>
    intro i k bus _
    simp [runInitE, runInit]
  | cons e rest ih =>
    intro i k bus hbus
    cases hp : e.params with
    | none =>
      cases i with
      | zero =>
        have hb : bus k = false := by
          rw [hbus k]
          exact decide_eq_false (by omega)
        simp [runInitE, hb, runInit, hp]
      | succ i1 =>
        have hb : bus k = true := by
          rw [hbus k]
          exact decide_eq_true (by omega)
        have hrec := ih i1 (k + 1) bus
          (fun j => (hbus j).trans (decide_eq_decide.mpr (by omega)))
        simp [runInitE, hb, hp, hrec, runInit, Nat.succ_lt_succ_iff]
    | some ps =>
      cases i with
      | zero =>
        have hb : bus k = false := by
          rw [hbus k]
          exact decide_eq_false (by omega)
        simp [runInitE, hb, runInit, hp]
      | succ i1 =>
        have hb : bus k = true := by
          rw [hbus k]
          exact decide_eq_true (by omega)
        cases i1 with
        | zero =>
          have hb1 : bus (k + 1) = false := by
            rw [hbus (k + 1)]
            exact decide_eq_false (by omega)
          simp [runInitE, hb, hb1, runInit, hp]
        | succ i2 =>
          have hb1 : bus (k + 1) = true := by
            rw [hbus (k + 1)]
            exact decide_eq_true (by omega)
          have hrec := ih i2 (k + 2) bus
            (fun j => (hbus j).trans (decide_eq_decide.mpr (by omega)))
          simp [runInitE, hb, hb1, hp, hrec, runInit, Nat.succ_lt_succ_iff]

/-- C1: for every 24-bit RGB color value (`0 ≤ color ≤ 0xFFFFFF`),
`_encode_pixel` produces exactly 3 bytes, equal to the low 3 bytes of
the 4-byte big-endian packed encoding of the color. -/
theorem encode_pixel_low3 (c : Int) (h0 : 0 ≤ c) (h1 : c ≤ 0xFFFFFF) :
    structPackI c = some (packBE 4 c.toNat) ∧
    encode_pixel c = some ((packBE 4 c.toNat).drop 1) ∧
    ((packBE 4 c.toNat).drop 1).length = 3 := by
  have hlt : c < 2 ^ 32 := lt_of_le_of_lt h1 (by norm_num)
  have hp : structPackI c = some (packBE 4 c.toNat) := by
    unfold structPackI
    rw [if_pos ⟨h0, hlt⟩]
  refine ⟨hp, ?_, ?_⟩
  · rw [encode_pixel, hp]
    rfl
  · simp [List.length_drop, packBE_length]

/-- Witness for C1 at the spec scenario color `0x123456`, which encodes
to bytes `[0x12, 0x34, 0x56]` (not `[0x00, 0x12, 0x34]`). -/
theorem encode_pixel_low3_witness :
    encode_pixel 0x123456 = some ((packBE 4 (Int.toNat 0x123456)).drop 1) ∧
    encode_pixel 0x123456 = some [0x12, 0x34, 0x56] :=
  ⟨(encode_pixel_low3 0x123456 (by decide) (by decide)).2.1, by decide⟩

/-- C9: for every `0 ≤ color < 2^32`, `_encode_pixel` returns the 3-byte
big-endian encoding of `color mod 2^24` (a nonzero high byte is silently
discarded); outside that range Python's `struct.pack(">I", ...)` raises
a packing error, modelled as `none`. -/
theorem encode_pixel_total (c : Int) :
    (0 ≤ c → c < 2 ^ 32 →
      encode_pixel c = some (packBE 3 (c.toNat % 2 ^ 24)) ∧
      (packBE 3 (c.toNat % 2 ^ 24)).length = 3) ∧
    (c < 0 ∨ 2 ^ 32 ≤ c → encode_pixel c = none) := by
  constructor
  · intro h0 hlt
    have hp : structPackI c = some (packBE 4 c.toNat) := by
      unfold structPackI
      rw [if_pos ⟨h0, hlt⟩]
    constructor
    · have h3 : (256 : Nat) ^ 3 = 2 ^ 24 := by norm_num
      have hd := packBE_drop_one 3 c.toNat
      rw [h3] at hd
      have he : encode_pixel c = some ((packBE 4 c.toNat).drop 1) := by
        rw [encode_pixel, hp]
        rfl
      rw [he, hd]
    · exact packBE_length _ _
  · intro h
    have hcond : ¬ (0 ≤ c ∧ c < 2 ^ 32) := by omega
    rw [encode_pixel]
    unfold structPackI
    rw [if_neg hcond]
    rfl

/-- Witness for C9: a color with a nonzero high byte has it discarded,
and `2^32` itself is rejected. -/
theorem encode_pixel_total_witness :
    encode_pixel 0x1F123456 =
      some (packBE 3 (Int.toNat 0x1F123456 % 2 ^ 24)) ∧
    encode_pixel (2 ^ 32) = none ∧
    encode_pixel 0x1F123456 = some [0x12, 0x34, 0x56] :=
  ⟨((encode_pixel_total 0x1F123456).1 (by decide) (by decide)).1,
   (encode_pixel_total (2 ^ 32)).2 (Or.inr (by decide)),
   by decide⟩

/-- C2: for every window with `x_start ≤ x_end`, `y_start ≤ y_end` whose
offset-adjusted coordinates fit in 16 bits, SetWindow emits exactly the
column-address-set command with 4 parameter bytes (start and end plus
`x_offset`, two consecutive big-endian 16-bit values) followed by the
row-address-set command with the corresponding 4 bytes for `y_offset`. -/
theorem setWindow_two_commands (cfg : DriverConfig) (x0 y0 x1 y1 : Nat)
    (hx : x0 ≤ x1) (hy : y0 ≤ y1)
    (hxe : x1 + cfg.x_offset < 2 ^ 16)
    (hye : y1 + cfg.y_offset < 2 ^ 16) :
    setWindow cfg x0 y0 x1 y1 =
      some [Event.cmd _COLUMN_SET,
            Event.data (packBE 2 (x0 + cfg.x_offset) ++
              packBE 2 (x1 + cfg.x_offset)),
            Event.cmd _PAGE_SET,
            Event.data (packBE 2 (y0 + cfg.y_offset) ++
              packBE 2 (y1 + cfg.y_offset))] ∧
    (packBE 2 (x0 + cfg.x_offset) ++ packBE 2 (x1 + cfg.x_offset)).length
      = 4 ∧
    (packBE 2 (y0 + cfg.y_offset) ++ packBE 2 (y1 + cfg.y_offset)).length
      = 4 := by
  have hxs : x0 + cfg.x_offset < 2 ^ 16 := by omega
  have hys : y0 + cfg.y_offset < 2 ^ 16 := by omega
  have hcb : packHH (x0 + cfg.x_offset) (x1 + cfg.x_offset) =
      some (packBE 2 (x0 + cfg.x_offset) ++ packBE 2 (x1 + cfg.x_offset)) := by
    unfold packHH
    rw [if_pos ⟨hxs, hxe⟩]
  have hpb : packHH (y0 + cfg.y_offset) (y1 + cfg.y_offset) =
      some (packBE 2 (y0 + cfg.y_offset) ++ packBE 2 (y1 + cfg.y_offset)) := by
    unfold packHH
    rw [if_pos ⟨hys, hye⟩]
  refine ⟨?_, ?_, ?_⟩
  · unfold setWindow
    rw [hcb, hpb]
  · simp [packBE_length]
  · simp [packBE_length]

/-- Witness for C2 at a configuration with nonzero offsets. -/
theorem setWindow_two_commands_witness :
    setWindow ⟨320, 480, 5, 7, 0, 16000000, 0, 0⟩ 1 2 3 4 =
      some [Event.cmd _COLUMN_SET,
            Event.data (packBE 2 (1 + 5) ++ packBE 2 (3 + 5)),
            Event.cmd _PAGE_SET,
            Event.data (packBE 2 (2 + 7) ++ packBE 2 (4 + 7))] :=
  (setWindow_two_commands ⟨320, 480, 5, 7, 0, 16000000, 0, 0⟩ 1 2 3 4
    (by decide) (by decide) (by decide) (by decide)).1

/-- C8: with the default configuration (width 320, height 480, zero
offsets, rotation 0), `SetWindow(10, 20, 100, 200)` emits the
column-address-set command (0x2A) with parameter bytes
`[0x00, 0x0A, 0x00, 0x64]` and the row-address-set command (0x2B) with
parameter bytes `[0x00, 0x14, 0x00, 0xC8]`. -/
theorem setWindow_scenario :
    _COLUMN_SET = 0x2A ∧ _PAGE_SET = 0x2B ∧
    setWindow defaultConfig 10 20 100 200 =
      some [Event.cmd _COLUMN_SET, Event.data [0x00, 0x0A, 0x00, 0x64],
            Event.cmd _PAGE_SET, Event.data [0x00, 0x14, 0x00, 0xC8]] := by
  refine ⟨rfl, rfl, ?_⟩
  decide

/-- C3: Initialize transmits the init-table entries in table order; for
each entry it first transmits the command byte, then, exactly when
parameters are present, the parameter bytes as one contiguous data
burst; the (optional) reset pulse is the only thing preceding the
table. -/
theorem init_table_order :
    init true = [Event.resetAssert, Event.resetRelease] ++ runInit _INIT ∧
    init false = runInit _INIT ∧
    runInit _INIT =
      _INIT.flatMap (fun e =>
        Event.cmd e.command ::
          (match e.params with
            | some ps => [Event.data ps]
            | none => [])) ∧
    (runInit _INIT).filterMap cmdOf = _INIT.map CommandEntry.command := by
  refine ⟨rfl, rfl, ?_, ?_⟩ <;> rfl

/-- C4: the init table ends with exactly two command-only entries, the
last two steps in order sleep-out (0x11) then display-on (0x29). -/
theorem init_table_tail :
    _INIT.length = 15 ∧
    _INIT.drop 13 = [⟨_SLPOUT, none⟩, ⟨_DISPON, none⟩] ∧
    _SLPOUT = 0x11 ∧ _DISPON = 0x29 ∧
    (_INIT.take 13).all (fun e => e.params.isSome) = true := by
  decide

/-- C10: init-table well-formedness: exactly 15 entries, every command
code fits in 8 bits, every present parameter sequence is non-empty, and
exactly the final two entries (0x11 sleep-out, 0x29 display-on) have
absent parameters. -/
theorem init_table_wf :
    _INIT.length = 15 ∧
    _INIT.all (fun e => decide (e.command < 256)) = true ∧
    _INIT.all (fun e =>
      match e.params with
      | some ps => !ps.isEmpty
      | none => true) = true ∧
    _INIT.drop 13 = [⟨0x11, none⟩, ⟨0x29, none⟩] ∧
    (_INIT.take 13).all (fun e => e.params.isSome) = true := by
  decide

/-- C5: if the bus fails at its `i`-th write (0-indexed; each command
byte and each contiguous parameter burst is one write), where write `i`
falls within the transmission of the first `m + 1` init-table entries
(any entry `m`), then transmission aborts immediately with the BusError
propagated unmodified, the transmitted events are exactly the strict
prefix of the full trace before the failed write, and — since that
prefix lies inside the events of entries `0 .. m` — no later init-table
entry is ever transmitted. -/
theorem init_bus_failure (i m : Nat) (_hm : m < _INIT.length)
    (hi : i < (runInit (_INIT.take (m + 1))).length) :
    (runInitE (fun j => decide (j < i)) 0 _INIT).2 =
      Except.error BusError.busError ∧
    (runInitE (fun j => decide (j < i)) 0 _INIT).1 =
      (runInit _INIT).take i ∧
    (runInitE (fun j => decide (j < i)) 0 _INIT).1 =
      (runInit (_INIT.take (m + 1))).take i := by
  have hkey := runInitE_take _INIT i 0 (fun j => decide (j < i))
    (fun j => decide_eq_decide.mpr (by omega))
  have hsplit : runInit _INIT =
      runInit (_INIT.take (m + 1)) ++ runInit (_INIT.drop (m + 1)) := by
    rw [← runInit_append, List.take_append_drop]
  have hlen : i < (runInit _INIT).length := by
    rw [hsplit, List.length_append]
    omega
  refine ⟨?_, ?_, ?_⟩
  · rw [hkey]
    simp [hlen]
  · rw [hkey]
  · rw [hkey]
    show (runInit _INIT).take i = (runInit (_INIT.take (m + 1))).take i
    rw [hsplit, List.take_append_of_le_length (le_of_lt hi)]

/-- Witness for C5 at the spec scenario: the bus fails at write 5, the
parameter burst of the 3rd init-table entry (entry index `m = 2`);
transmission ends with the BusError after exactly the first 5 events,
all of which belong to the first 3 entries. -/
theorem init_bus_failure_witness :
    (2 < _INIT.length ∧ 5 < (runInit (_INIT.take (2 + 1))).length) ∧
    ((runInitE (fun j => decide (j < 5)) 0 _INIT).2 =
       Except.error BusError.busError ∧
     (runInitE (fun j => decide (j < 5)) 0 _INIT).1 =
       (runInit _INIT).take 5 ∧
     (runInitE (fun j => decide (j < 5)) 0 _INIT).1 =
       (runInit (_INIT.take (2 + 1))).take 5) :=
  ⟨⟨by decide, by decide⟩, init_bus_failure 5 2 (by decide) (by decide)⟩

/-- C6: during Initialize the reset pulse (when a reset line is present)
strictly precedes the first init-table command, no reset action occurs
later in Initialize, and none of the subsequent operations — SetWindow,
WritePixels, ReadPixels — ever touch the reset line. -/
theorem reset_before_first_command :
    init true = [Event.resetAssert, Event.resetRelease] ++ runInit _INIT ∧
    (runInit _INIT).all (fun e => !isReset e) = true ∧
    (∀ cfg x0 y0 x1 y1,
      ((setWindow cfg x0 y0 x1 y1).getD []).all (fun e => !isReset e)
        = true) ∧
    (∀ colors,
      ((writePixels colors).getD []).all (fun e => !isReset e) = true) ∧
    (∀ count, (readPixels count).all (fun e => !isReset e) = true) := by
  refine ⟨rfl, by decide, ?_, ?_, fun count => rfl⟩
  · intro cfg x0 y0 x1 y1
    unfold setWindow
    cases packHH (x0 + cfg.x_offset) (x1 + cfg.x_offset) <;>
      cases packHH (y0 + cfg.y_offset) (y1 + cfg.y_offset) <;>
        simp [isReset]
  · intro colors
    unfold writePixels
    cases colors.mapM encode_pixel <;> simp [isReset]

/-- C7: construction only stores the configuration (and whether a reset
line was supplied) and performs no bus transaction: the list of bus
events emitted during construction is empty. -/
theorem construct_no_bus (cfg : DriverConfig) (b : Bool) :
    (construct cfg b).2 = [] ∧
    (construct cfg b).1.config = cfg ∧
    (construct cfg b).1.hasReset = b :=
  ⟨rfl, rfl, rfl⟩

end ILI9488
